import Mathlib

/-!
Verification of the remote-object reference protocol of the `phantomjs` Go
wrapper (`phantomjs.go`).

The development shallowly embeds the two cooperating halves of the program:

* the engine-side dispatcher, a JavaScript shim embedded as the Go string
  constant `shim` (reference table `refs`, counter `refID`, `createRef`,
  `deleteRef`, `ref`, and the request handlers), and
* the host-side Go code (`Process.Open`, `Process.Close`, `mustDoJSON`,
  `WebPage` accessors).

JavaScript semantics are embedded faithfully.  Two points deserve emphasis,
since theorems below hinge on them:

* `delete(refs, key)` applies the JS `delete` operator to the parenthesized
  comma expression `(refs, key)`.  Per ECMAScript the operand is evaluated
  to the value of `key`, which is not a Reference, so `delete` returns true
  without modifying `refs`.  The model encodes this as `jsDeleteCommaExpr`.
* `createRef` returns the bare key string (`return key`) on the
  deduplication path, but an object (`return {id: ...}`, rendered here as
  `RefResult.newRef`) on the allocation path, so the two paths serialize to
  different JSON shapes.

Pages are identified by numeric object identities (`Nat`); the JS `===`
comparison between objects becomes equality of identities.
-/

namespace Phantom

/-- Minimal JSON value fragment used on the wire between host and shim. -/
inductive JVal where
  | str (s : String)
  | bool (b : Bool)
  | obj (fields : List (String × JVal))
  | arr (elems : List JVal)

/-- Modelled from the spec: an engine-side `webpage` object (the shim stores
live engine objects in `refs`; the objects themselves live in the PhantomJS
runtime, which is not part of this repository).  Only the attributes the
claims touch are kept: the closed flag, the window name used by
`page.getPage(name)`, the owned child windows (`page.pages`) and one
representative readable property (`page.canGoBack`). -/
structure Page where
  closed : Bool := false
  windowName : String := ""
  childIds : List Nat := []
  canGoBack : Bool := false
  deriving DecidableEq

/-- Engine-side dispatcher state: the shim's globals `refID` (monotone
counter, initially 0) and `refs` (handle string to object), plus the heap of
engine objects giving object identity. -/
structure Engine where
  refID : Nat := 0
  refs : List (String × Nat) := []
  heap : List (Nat × Page) := []
  deriving DecidableEq

/-- The dispatcher state at engine start: `var refID = 0; var refs = {}`. -/
def Engine.init : Engine := {}

/-- Heap lookup by object identity. -/
def heapGet (e : Engine) (pid : Nat) : Option Page :=
  (e.heap.find? (fun kv => kv.1 == pid)).map (·.2)

/-- Value returned by the shim's `createRef`: the dedup path returns the
existing key itself (a bare string); the allocation path returns an object
with an `id` field. -/
inductive RefResult where
  | existingKey (k : String)
  | newRef (id : String)
  deriving DecidableEq

/-- The shim's `createRef(value)`: scan `refs` for an entry holding the same
object (`===`); if found return the existing key, otherwise increment
`refID`, store the object under `refID.toString()` and return the fresh id
wrapped in an object. -/
def createRef (e : Engine) (v : Nat) : Engine × RefResult :=
  match e.refs.find? (fun kv => kv.2 == v) with
  | some kv => (e, .existingKey kv.1)
  | none =>
    let newID := e.refID + 1
    ({ e with refID := newID, refs := e.refs ++ [(Nat.repr newID, v)] },
      .newRef (Nat.repr newID))

/-- The JS statement `delete(refs, key)`: the `delete` operator applied to
the parenthesized comma expression `(refs, key)`.  The comma expression
evaluates to the value of `key`, which is not a Reference, so per
ECMAScript `delete` yields `true` and removes nothing from `refs`. -/
def jsDeleteCommaExpr (refs : List (String × Nat)) (_key : String) :
    List (String × Nat) :=
  refs

/-- The shim's `deleteRef(value)`: iterate over the keys of `refs` and run
`delete(refs, key)` on every key bound to the given object. -/
def deleteRef (e : Engine) (v : Nat) : Engine :=
  { e with
    refs := e.refs.foldl
      (fun acc kv => if kv.2 == v then jsDeleteCommaExpr acc kv.1 else acc)
      e.refs }

/-- The shim's `ref(id)`: `return refs[id]`, `none` modelling `undefined`. -/
def refLookup (e : Engine) (id : String) : Option Nat :=
  (e.refs.find? (fun kv => kv.1 == id)).map (·.2)

/-- Modelled from the spec: `page.close()` releases the engine-side page.
The PhantomJS runtime is outside this repository; the model records the
`unallocated → live → closed` transition by setting the closed flag. -/
def closePage (e : Engine) (pid : Nat) : Engine :=
  { e with
    heap := e.heap.map
      (fun kv => if kv.1 == pid then (kv.1, { kv.2 with closed := true }) else kv) }

/-- Modelled from the spec: `webpage.create()` allocates a fresh engine-side
page object; freshness is realized by taking one more than the largest
identity in use. -/
def freshPid (e : Engine) : Nat :=
  e.heap.foldl (fun m kv => Nat.max m (kv.1 + 1)) 0

/-- Modelled from the spec: a page spawning a child window (an engine-level
event, e.g. a click opening a named window) creates a new engine-side page
owned by the parent.  The reference table is not touched: the child gets a
handle only when first observed through `/webpage/Pages` or
`/webpage/Page`. -/
def spawnChild (e : Engine) (parentPid : Nat) (name : String) : Engine :=
  let cid := freshPid e
  { e with
    heap := (e.heap.map (fun kv =>
        if kv.1 == parentPid then
          (kv.1, { kv.2 with childIds := kv.2.childIds ++ [cid] })
        else kv)) ++ [(cid, { windowName := name })] }

/-- Modelled from the spec: `page.getPage(name)` returns the owned page
whose window name matches, or `null`. -/
def getPage (e : Engine) (page : Page) (name : String) : Option Nat :=
  page.childIds.find? (fun cid =>
    match heapGet e cid with
    | some c => c.windowName == name
    | none => false)

/-- Body of an HTTP response produced by the shim: a JSON document, plain
text, or nothing (`response.closeGracefully()` without a write). -/
inductive RespBody where
  | empty
  | json (v : JVal)
  | text (s : String)

/-- HTTP response of the shim's web server. -/
structure HttpResponse where
  status : Nat := 200
  body : RespBody := .empty

/-- Response produced when a handler dereferences `undefined` (a missing
handle): the thrown TypeError is caught by the `server.listen` wrapper,
which answers 500 with `request.url + ": " + e.message`.  The exact
TypeError text is engine-specific; only the 500 status matters below. -/
def typeErrorResponse (url : String) : HttpResponse :=
  { status := 500, body := .text (url ++ ": TypeError") }

/-- JSON serialization of `createRef`'s result as embedded by the handlers:
the dedup path yields a bare JSON string, the allocation path an object
with an `id` field. -/
def refResultJSON : RefResult → JVal
  | .existingKey k => .str k
  | .newRef id => .obj [("id", .str id)]

/-- Handler for `/webpage/Create`: create an engine page, register it with
`createRef` and answer `{ref: ...}`. -/
def handleWebpageCreate (e : Engine) : Engine × HttpResponse :=
  let pid := freshPid e
  let e1 := { e with heap := e.heap ++ [(pid, {})] }
  let (e2, r) := createRef e1 pid
  (e2, { status := 200, body := .json (.obj [("ref", refResultJSON r)]) })

/-- Handler for `/webpage/CanGoBack`: look the page up by handle and answer
`{value: page.canGoBack}`; a missing handle makes the property access on
`undefined` throw, which the server wrapper maps to 500. -/
def handleWebpageCanGoBack (e : Engine) (refArg : String) : Engine × HttpResponse :=
  match refLookup e refArg with
  | none => (e, typeErrorResponse "/webpage/CanGoBack")
  | some pid =>
    match heapGet e pid with
    | none => (e, typeErrorResponse "/webpage/CanGoBack")
    | some page =>
      (e, { status := 200, body := .json (.obj [("value", .bool page.canGoBack)]) })

/-- Handler for `/webpage/Pages`: map `createRef` over `page.pages` and
answer `{refs: [...]}`; the state threads left to right through the map. -/
def handleWebpagePages (e : Engine) (refArg : String) : Engine × HttpResponse :=
  match refLookup e refArg with
  | none => (e, typeErrorResponse "/webpage/Pages")
  | some pid =>
    match heapGet e pid with
    | none => (e, typeErrorResponse "/webpage/Pages")
    | some page =>
      let (e2, rs) := page.childIds.foldl
        (fun (acc : Engine × List RefResult) cid =>
          let (e', r) := createRef acc.1 cid
          (e', acc.2 ++ [r]))
        (e, [])
      (e2, { status := 200, body := .json (.obj [("refs", .arr (rs.map refResultJSON))]) })

/-- Handler for `/webpage/Page`: `page.getPage(name)`; `null` answers the
empty JSON object, otherwise `{ref: createRef(p)}`. -/
def handleWebpagePage (e : Engine) (refArg : String) (name : String) :
    Engine × HttpResponse :=
  match refLookup e refArg with
  | none => (e, typeErrorResponse "/webpage/Page")
  | some pid =>
    match heapGet e pid with
    | none => (e, typeErrorResponse "/webpage/Page")
    | some page =>
      match getPage e page name with
      | none => (e, { status := 200, body := .json (.obj []) })
      | some cid =>
        let (e2, r) := createRef e cid
        (e2, { status := 200, body := .json (.obj [("ref", refResultJSON r)]) })

/-- Handler for `/webpage/Close`: close the page, run `delete(refs,
msg.ref)` (the comma-expression no-op), then close each owned page and run
`deleteRef` on it. -/
def handleWebpageClose (e : Engine) (refArg : String) : Engine × HttpResponse :=
  match refLookup e refArg with
  | none => (e, typeErrorResponse "/webpage/Close")
  | some pid =>
    match heapGet e pid with
    | none => (e, typeErrorResponse "/webpage/Close")
    | some page =>
      let e1 := closePage e pid
      let e2 := { e1 with refs := jsDeleteCommaExpr e1.refs refArg }
      let e3 := page.childIds.foldl
        (fun acc cid => deleteRef (closePage acc cid) cid) e2
      (e3, { status := 200, body := .empty })

/-- Request forms reaching the shim's `server.listen` switch (the subset of
method paths the claims exercise, plus an unknown path). -/
inductive Request where
  | ping
  | webpageCreate
  | webpageCanGoBack (ref : String)
  | webpagePages (ref : String)
  | webpagePage (ref : String) (name : String)
  | webpageClose (ref : String)
  | unknown (path : String)
  deriving DecidableEq

/-- The `server.listen` dispatch switch: known paths go to their handlers,
anything else to `handleNotFound` (status 404, body `not found`). -/
def dispatch (e : Engine) : Request → Engine × HttpResponse
  | .ping => (e, { status := 200, body := .text "ok" })
  | .webpageCreate => handleWebpageCreate e
  | .webpageCanGoBack r => handleWebpageCanGoBack e r
  | .webpagePages r => handleWebpagePages e r
  | .webpagePage r n => handleWebpagePage e r n
  | .webpageClose r => handleWebpageClose e r
  | .unknown _ => (e, { status := 404, body := .text "not found" })

/- Host side: the Go transport `Process.mustDoJSON` and the `WebPage`
facade methods built on it. -/

/-- Outcome of a call through `Process.mustDoJSON`.  The Go function has no
error result: it either returns after a successful round trip (with a
decoded response when one was requested) or panics. -/
inductive MustDo (α : Type) where
  | ok (a : α)
  | okNoBody
  | panicked (msg : String)
  deriving DecidableEq

/-- True when the call ended in a panic. -/
def MustDo.isPanicked {α : Type} : MustDo α → Bool
  | .panicked _ => true
  | _ => false

/-- Raw bytes of a response body as read by `ioutil.ReadAll` (the shim's
500 and 404 answers are plain text; JSON bodies are kept symbolic since the
claims never inspect their raw text). -/
def bodyText : RespBody → String
  | .empty => ""
  | .text s => s
  | .json _ => "json body"

/-- Result of the HTTP round trip inside `mustDoJSON`: either
`http.DefaultClient.Do` failed (connection failure) or a response came
back. -/
inductive HttpOutcome where
  | connError (msg : String)
  | response (resp : HttpResponse)

/-- The Go transport `Process.mustDoJSON`: panic on connection failure; 404
panics with `not found: <path>`; 500 panics with the response body as the
error message; otherwise decode the body when a response struct was passed
(`dec = some d`), panicking on a decode error. -/
def mustDoJSON {α : Type} (path : String) (outcome : HttpOutcome)
    (dec : Option (RespBody → Except String α)) : MustDo α :=
  match outcome with
  | .connError msg => .panicked msg
  | .response resp =>
    if resp.status == 404 then .panicked ("not found: " ++ path)
    else if resp.status == 500 then .panicked (bodyText resp.body)
    else
      match dec with
      | none => .okNoBody
      | some d =>
        match d resp.body with
        | .ok a => .ok a
        | .error err =>
          .panicked ("unmarshal error: err=" ++ err ++ ", buffer=" ++ bodyText resp.body)

/-- Go `json.Unmarshal` of a response into `struct { Ref refJSON }`: a
missing `ref` field leaves the zero value (ID `""`); an object field reads
its `id` string; a JSON string where the struct `refJSON` is expected is an
unmarshal error. -/
def unmarshalRefField (v : JVal) : Except String String :=
  match v with
  | .obj fields =>
    match fields.find? (fun f => f.1 == "ref") with
    | none => .ok ""
    | some (_, .obj g) =>
      match g.find? (fun f => f.1 == "id") with
      | some (_, .str s) => .ok s
      | some _ => .error "cannot unmarshal value into Go struct field refJSON.id"
      | none => .ok ""
    | some (_, _) => .error "cannot unmarshal value into Go struct field .ref of type phantomjs.refJSON"
  | _ => .error "cannot unmarshal value into Go value"

/-- Go `json.Unmarshal` of one element of `[]refJSON`: must be an object;
its `id` field must be a string when present. -/
def unmarshalRefElem (v : JVal) : Except String String :=
  match v with
  | .obj g =>
    match g.find? (fun f => f.1 == "id") with
    | some (_, .str s) => .ok s
    | some _ => .error "cannot unmarshal value into Go struct field refJSON.id"
    | none => .ok ""
  | _ => .error "cannot unmarshal value into Go value of type phantomjs.refJSON"

/-- Go `json.Unmarshal` of a response into `struct { Refs []refJSON }`. -/
def unmarshalRefsField (v : JVal) : Except String (List String) :=
  match v with
  | .obj fields =>
    match fields.find? (fun f => f.1 == "refs") with
    | none => .ok []
    | some (_, .arr elems) =>
      elems.foldl
        (fun acc el =>
          match acc with
          | .error m => .error m
          | .ok ids =>
            match unmarshalRefElem el with
            | .ok id => .ok (ids ++ [id])
            | .error m => .error m)
        (.ok [])
    | some (_, _) => .error "cannot unmarshal value into Go struct field .refs"
  | _ => .error "cannot unmarshal value into Go value"

/-- Decoder passed by host methods expecting a `ref` response field. -/
def decodeRef (b : RespBody) : Except String String :=
  match b with
  | .json v => unmarshalRefField v
  | _ => .error "unexpected end of JSON input"

/-- Decoder passed by host methods expecting a `refs` response field. -/
def decodeRefs (b : RespBody) : Except String (List String) :=
  match b with
  | .json v => unmarshalRefsField v
  | _ => .error "unexpected end of JSON input"

/-- Host `Process.CreateWebPage`: POST `/webpage/Create`, decode the `ref`
field and wrap it in a `WebPage` (here: its handle id). -/
def processCreateWebPage (e : Engine) : Engine × MustDo String :=
  let (e2, resp) := dispatch e .webpageCreate
  (e2, mustDoJSON "/webpage/Create" (.response resp) (some decodeRef))

/-- Host `WebPage.Pages`: POST `/webpage/Pages`, decode the `refs` field
into the handle ids of the owned pages. -/
def webPagePages (e : Engine) (selfId : String) : Engine × MustDo (List String) :=
  let (e2, resp) := dispatch e (.webpagePages selfId)
  (e2, mustDoJSON "/webpage/Pages" (.response resp) (some decodeRefs))

/-- Host `WebPage.Page(name)`: POST `/webpage/Page`; a decoded empty id
yields `nil` (modelled `none`), otherwise a handle-bearing page. -/
def webPagePage (e : Engine) (selfId : String) (name : String) :
    Engine × MustDo (Option String) :=
  let (e2, resp) := dispatch e (.webpagePage selfId name)
  match mustDoJSON "/webpage/Page" (.response resp) (some decodeRef) with
  | .ok id => (e2, .ok (if id == "" then none else some id))
  | .okNoBody => (e2, .okNoBody)
  | .panicked m => (e2, .panicked m)

/-- Host `WebPage.Close`: POST `/webpage/Close` with no response struct. -/
def webPageClose (e : Engine) (selfId : String) : Engine × MustDo Unit :=
  let (e2, resp) := dispatch e (.webpageClose selfId)
  (e2, mustDoJSON "/webpage/Close" (.response resp) (none : Option (RespBody → Except String Unit)))

/- Host `WebPage` facade stubs: eight exported methods whose whole body is
`panic("TODO")`. -/

/-- Host-side `WebPage` value: wraps the handle id of the engine object. -/
structure WebPage where
  refId : String
  deriving DecidableEq

/-- Observable behaviour of a facade method call: the RPC requests it sent
through the transport and the panic it ended in, if any. -/
structure FacadeCall where
  requests : List Request
  panicMsg : Option String
  deriving DecidableEq

/-- `func (p *WebPage) SendEvent() { panic("TODO") }` -/
def WebPage.SendEvent (_p : WebPage) : FacadeCall :=
  { requests := [], panicMsg := some "TODO" }

/-- `func (p *WebPage) SetContentAndURL() { panic("TODO") }` -/
def WebPage.SetContentAndURL (_p : WebPage) : FacadeCall :=
  { requests := [], panicMsg := some "TODO" }

/-- `func (p *WebPage) Stop() { panic("TODO") }` -/
def WebPage.Stop (_p : WebPage) : FacadeCall :=
  { requests := [], panicMsg := some "TODO" }

/-- `func (p *WebPage) SwitchToChildFrame() { panic("TODO") }` -/
def WebPage.SwitchToChildFrame (_p : WebPage) : FacadeCall :=
  { requests := [], panicMsg := some "TODO" }

/-- `func (p *WebPage) SwitchToFocusedFrame() { panic("TODO") }` -/
def WebPage.SwitchToFocusedFrame (_p : WebPage) : FacadeCall :=
  { requests := [], panicMsg := some "TODO" }

/-- `func (p *WebPage) SwitchToMainFrame() { panic("TODO") }` -/
def WebPage.SwitchToMainFrame (_p : WebPage) : FacadeCall :=
  { requests := [], panicMsg := some "TODO" }

/-- `func (p *WebPage) SwitchToParentFrame() { panic("TODO") }` -/
def WebPage.SwitchToParentFrame (_p : WebPage) : FacadeCall :=
  { requests := [], panicMsg := some "TODO" }

/-- `func (p *WebPage) UploadFile() { panic("TODO") }` -/
def WebPage.UploadFile (_p : WebPage) : FacadeCall :=
  { requests := [], panicMsg := some "TODO" }

/- Process supervisor: `Process.Open` / `Process.Close` over an explicit
world of external resources (temporary directory, staged shim, external
process). -/

/-- External resources owned by a `Process`. -/
structure World where
  dirExists : Bool := false
  shimWritten : Bool := false
  procRunning : Bool := false
  deriving DecidableEq

/-- The fields of the Go `Process` struct relevant to lifecycle: `path`
(zero value `""`) and `cmd` (`nil` modelled by `cmd = false`).
`cmdProcessSet` models `cmd.Process` being non-nil, which `exec.Cmd.Start`
establishes on success; it is what `Close` dereferences. -/
structure ProcessState where
  path : String := ""
  cmd : Bool := false
  cmdProcessSet : Bool := false
  deriving DecidableEq

/-- Outcome of `Process.Close`: a normal return carrying the Go error
value, or a runtime panic (nil-pointer dereference). -/
inductive CloseOutcome where
  | normal (err : Option String)
  | panicked (msg : String)
  deriving DecidableEq

/-- `os.Process.Kill`: kills a running process; killing an already-finished
process returns an error. -/
def killProcess (w : World) : World × Option String :=
  if w.procRunning then ({ w with procRunning := false }, none)
  else (w, some "os: process already finished")

/-- `os.RemoveAll` on the private directory: removes the directory and its
staged shim; absent paths are not an error. -/
def removeAll (w : World) : World :=
  { w with dirExists := false, shimWritten := false }

/-- Go `Process.Close`: if `cmd` is non-nil, `cmd.Process.Kill()` (recording
its error) then `cmd.Wait()` (error discarded); if `path` is non-empty,
`os.RemoveAll(path)`.  Neither field is reset.  Dereferencing `cmd.Process`
while it is nil would panic. -/
def processClose (p : ProcessState) (w : World) :
    ProcessState × World × CloseOutcome :=
  if p.cmd && !p.cmdProcessSet then
    (p, w, .panicked "invalid memory address or nil pointer dereference")
  else
    let (w1, err) :=
      if p.cmd then killProcess w
      else (w, none)
    let w2 := if p.path ≠ "" then removeAll w1 else w1
    (p, w2, .normal err)

/-- Failure injection point for `Process.Open`: each failing step of the
inner closure, or a fully successful open. -/
inductive OpenStep where
  | tempDirFail
  | writeFileFail
  | startFail
  | waitTimeout
  | success
  deriving DecidableEq

/-- Go `Process.Open`: the inner closure creates the temporary directory,
sets `p.path`, stages the shim, starts the process (setting `p.cmd` only on
success), and polls readiness; if the closure returns an error, `p.Close()`
runs (its own result discarded) and the original error is returned. -/
def processOpen (p : ProcessState) (w : World) (fp : OpenStep) :
    ProcessState × World × Option String :=
  let inner : ProcessState × World × Option String :=
    if fp = .tempDirFail then (p, w, some "tempdir failed")
    else
      let w1 := { w with dirExists := true }
      let p1 := { p with path := "/tmp/phantomjs-000000000" }
      if fp = .writeFileFail then (p1, w1, some "write shim failed")
      else
        let w2 := { w1 with shimWritten := true }
        if fp = .startFail then (p1, w2, some "exec failed")
        else
          let w3 := { w2 with procRunning := true }
          let p2 := { p1 with cmd := true, cmdProcessSet := true }
          if fp = .waitTimeout then (p2, w3, some "timeout")
          else (p2, w3, none)
  match inner with
  | (p1, w1, some err) =>
    let (p2, w2, _) := processClose p1 w1
    (p2, w2, some err)
  | (p1, w1, none) => (p1, w1, none)

/- Custom headers: `WebPage.SetCustomHeaders` and the Go standard library
functions it goes through (`http.Header.Get`, backed by
`textproto.CanonicalMIMEHeaderKey`). -/

/-- Go `net/textproto.validHeaderFieldByte`: letters, digits and the token
characters of RFC 7230 (spelled by code point to keep the source byte set
exact). -/
def validHeaderFieldByte (c : Char) : Bool :=
  c.isAlpha || c.isDigit ||
  [33, 35, 36, 37, 38, 39, 42, 43, 45, 46, 94, 95, 96, 124, 126].contains c.toNat

/-- Case transformation of `textproto.canonicalMIMEHeaderKey`: uppercase a
letter at the start or after a hyphen (code point 45), lowercase every
other letter. -/
def canonicalChars : Bool → List Char → List Char
  | _, [] => []
  | upper, c :: rest =>
    let c' :=
      if upper && c.isLower then c.toUpper
      else if !upper && c.isUpper then c.toLower
      else c
    c' :: canonicalChars (c'.toNat == 45) rest

/-- Go `textproto.CanonicalMIMEHeaderKey`: if any byte is not a valid
header-field byte the key is returned unchanged, otherwise the canonical
case transformation is applied. -/
def CanonicalMIMEHeaderKey (s : String) : String :=
  if s.data.all validHeaderFieldByte then (canonicalChars true s.data).asString
  else s

/-- A Go `http.Header` (`map[string][]string`), as an association list. -/
def headerLookup (h : List (String × List String)) (k : String) :
    Option (List String) :=
  (h.find? (fun kv => kv.1 == k)).map (·.2)

/-- Go `http.Header.Get` via `textproto.MIMEHeader.Get`: canonicalize the
key, return the first value of its list, or `""` when the key is absent or
its list is empty. -/
def headerGet (h : List (String × List String)) (k : String) : String :=
  match headerLookup h (CanonicalMIMEHeaderKey k) with
  | none => ""
  | some [] => ""
  | some (v :: _) => v

/-- The `headers` payload map built by `WebPage.SetCustomHeaders`:
`for key := range header { m[key] = header.Get(key) }`. -/
def setCustomHeadersPayload (h : List (String × List String)) :
    List (String × String) :=
  h.map (fun kv => (kv.1, headerGet h kv.1))

/-- Lookup in the payload map. -/
def payloadLookup (m : List (String × String)) (k : String) : Option String :=
  (m.find? (fun kv => kv.1 == k)).map (·.2)

/- Reference-table operation traces.  Within one engine process lifetime
the table is mutated only through `createRef` (any handler issuing a
handle), `deleteRef` (cascade step of `/webpage/Close`) and the
`delete(refs, msg.ref)` statement of `/webpage/Close`. -/

/-- One mutation of the shim's reference table. -/
inductive TableOp where
  | create (v : Nat)
  | remove (v : Nat)
  | closeRef (k : String)

/-- Apply one table operation; the second component is the handle id minted
by this operation, if it allocated one. -/
def applyOp (e : Engine) : TableOp → Engine × Option String
  | .create v =>
    let p := createRef e v
    (p.1, match p.2 with | .newRef id => some id | .existingKey _ => none)
  | .remove v => (deleteRef e v, none)
  | .closeRef k => ({ e with refs := jsDeleteCommaExpr e.refs k }, none)

/-- Run a trace of table operations, collecting the minted handle ids in
order. -/
def runOps (e : Engine) : List TableOp → Engine × List String
  | [] => (e, [])
  | op :: ops =>
    ((runOps (applyOp e op).1 ops).1,
      (applyOp e op).2.toList ++ (runOps (applyOp e op).1 ops).2)

/-- True when a `Process.Close` call ended in a panic. -/
def CloseOutcome.isPanicked : CloseOutcome → Bool
  | .panicked _ => true
  | .normal _ => false

/- Concrete scenario states used to evaluate the protocol on real inputs. -/

/-- Engine state after `/webpage/Create`: one page (object identity 0)
registered under handle `"1"`. -/
def engineAfterCreate : Engine := (handleWebpageCreate Engine.init).1

/-- Engine state after the created page spawns an owned child window named
`win1` (object identity 1, not yet referenced). -/
def engineWithChild : Engine := spawnChild engineAfterCreate 0 "win1"

/-- First host call to `WebPage.Pages` on the parent: the engine mints
handle `"2"` for the child and the host decodes it. -/
def firstPagesCall : Engine × MustDo (List String) :=
  webPagePages engineWithChild "1"

/-- Engine state after `/webpage/Close` on handle `"1"` of the freshly
created page. -/
def engineAfterClose : Engine :=
  (dispatch engineAfterCreate (.webpageClose "1")).1

/-- Engine state after `/webpage/Close` on the parent handle `"1"` while
its child holds handle `"2"`: the cascade-delete scenario with K = 1. -/
def engineAfterCascade : Engine :=
  (dispatch firstPagesCall.1 (.webpageClose "1")).1

/- Decimal numerals: `Nat.repr` (the Lean rendering of the shim's
`refID.toString()`) is injective.  Proved through a decimal evaluator for
the digit lists produced by `Nat.toDigitsCore`. -/

/-- Numeric value of a decimal digit character. -/
def digitVal (c : Char) : Nat := c.toNat - 48

/-- Decimal value of a digit list, most significant digit first. -/
def listVal (l : List Char) : Nat :=
  l.foldl (fun a c => a * 10 + digitVal c) 0

lemma foldl_digitVal_shift (l : List Char) (i : Nat) :
    l.foldl (fun a c => a * 10 + digitVal c) i
      = i * 10 ^ l.length + l.foldl (fun a c => a * 10 + digitVal c) 0 := by
  induction l generalizing i with
  | nil => simp
  | cons c rest ih =>
    simp only [List.foldl_cons, List.length_cons]
    rw [ih (i * 10 + digitVal c), ih (0 * 10 + digitVal c)]
    ring

lemma digitVal_digitChar (d : Nat) (h : d < 10) :
    digitVal (Nat.digitChar d) = d := by
  interval_cases d <;> decide

lemma listVal_toDigitsCore (fuel : Nat) : ∀ (n : Nat) (acc : List Char),
    n < 10 ^ fuel →
    listVal (Nat.toDigitsCore 10 fuel n acc)
      = n * 10 ^ acc.length + listVal acc := by
  induction fuel with
  | zero =>
    intro n acc h
    have hn : n = 0 := by simpa using h
    subst hn
    simp [Nat.toDigitsCore]
  | succ fuel ih =>
    intro n acc h
    by_cases h0 : n / 10 = 0
    · have hlt : n < 10 := by omega
      have hmod : n % 10 = n := Nat.mod_eq_of_lt hlt
      simp only [Nat.toDigitsCore, h0, if_true]
      show listVal (Nat.digitChar (n % 10) :: acc) = _
      unfold listVal
      rw [List.foldl_cons, foldl_digitVal_shift]
      rw [Nat.zero_mul, Nat.zero_add, hmod, digitVal_digitChar n hlt]
    · have hdiv : n / 10 < 10 ^ fuel := by
        apply Nat.div_lt_of_lt_mul
        calc n < 10 ^ (fuel + 1) := h
        _ = 10 * 10 ^ fuel := by ring
      simp only [Nat.toDigitsCore, h0, if_false]
      rw [ih (n / 10) (Nat.digitChar (n % 10) :: acc) hdiv]
      unfold listVal
      rw [List.foldl_cons, foldl_digitVal_shift]
      rw [Nat.zero_mul, Nat.zero_add, digitVal_digitChar (n % 10) (Nat.mod_lt n (by omega))]
      have hrec : n / 10 * 10 ^ (Nat.digitChar (n % 10) :: acc).length
            + (n % 10 * 10 ^ acc.length + acc.foldl (fun a c => a * 10 + digitVal c) 0)
          = (n / 10 * 10 + n % 10) * 10 ^ acc.length
            + acc.foldl (fun a c => a * 10 + digitVal c) 0 := by
        simp only [List.length_cons]
        ring
      rw [hrec]
      have heq : n / 10 * 10 + n % 10 = n := by omega
      rw [heq]

lemma listVal_toDigits (n : Nat) : listVal (Nat.toDigits 10 n) = n := by
  have h1 : n < 10 ^ n := Nat.lt_pow_self (by norm_num) n
  have h : n < 10 ^ (n + 1) :=
    lt_of_lt_of_le h1 (Nat.pow_le_pow_right (by norm_num) (Nat.le_succ n))
  have := listVal_toDigitsCore (n + 1) n [] h
  simpa [Nat.toDigits, listVal] using this

lemma natRepr_injective : Function.Injective Nat.repr := by
  intro m n h
  have hd : Nat.toDigits 10 m = Nat.toDigits 10 n := by
    have hdata := congrArg String.data h
    simpa [Nat.repr, List.asString] using hdata
  have hv := congrArg listVal hd
  rwa [listVal_toDigits, listVal_toDigits] at hv

/- Behaviour of single table operations. -/

lemma foldl_jsDelete (v : Nat) (l : List (String × Nat)) :
    ∀ init : List (String × Nat),
      l.foldl (fun acc kv => if kv.2 == v then jsDeleteCommaExpr acc kv.1 else acc) init
        = init := by
  induction l with
  | nil => intro init; rfl
  | cons kv rest ih =>
    intro init
    rw [List.foldl_cons]
    show rest.foldl _ (if kv.2 == v then init else init) = init
    rw [ite_self]
    exact ih init

/-- The shim's `deleteRef` never changes the reference table: every
iteration runs the no-op `delete(refs, key)`. -/
lemma deleteRef_refs (e : Engine) (v : Nat) : (deleteRef e v).refs = e.refs :=
  foldl_jsDelete v e.refs e.refs

lemma deleteRef_refID (e : Engine) (v : Nat) : (deleteRef e v).refID = e.refID :=
  rfl

lemma deleteRef_heap (e : Engine) (v : Nat) : (deleteRef e v).heap = e.heap :=
  rfl

/-- Each table operation either leaves `refID` unchanged and mints nothing,
or bumps `refID` by one and mints exactly the stringification of the new
counter value. -/
lemma applyOp_refID_mint (e : Engine) (op : TableOp) :
    ((applyOp e op).1.refID = e.refID ∧ (applyOp e op).2 = none) ∨
    ((applyOp e op).1.refID = e.refID + 1 ∧
      (applyOp e op).2 = some (Nat.repr (e.refID + 1))) := by
  cases op with
  | create v =>
    cases hfind : e.refs.find? (fun kv => kv.2 == v) with
    | some kv =>
      left
      constructor <;> simp [applyOp, createRef, hfind]
    | none =>
      right
      constructor <;> simp [applyOp, createRef, hfind]
  | remove v => exact Or.inl ⟨rfl, rfl⟩
  | closeRef k => exact Or.inl ⟨rfl, rfl⟩

/-- Along any trace, the minted handle ids are the decimal renderings of a
strictly increasing sequence of counter values, all above the starting
counter. -/
lemma runOps_minted (ops : List TableOp) : ∀ e : Engine,
    ∃ ns : List Nat,
      (runOps e ops).2 = ns.map Nat.repr ∧
      ns.Pairwise (· < ·) ∧
      (∀ n ∈ ns, e.refID < n) := by
  induction ops with
  | nil =>
    intro e
    exact ⟨[], rfl, List.Pairwise.nil, by simp⟩
  | cons op ops ih =>
    intro e
    obtain ⟨ns, hms, hpw, hgt⟩ := ih (applyOp e op).1
    rcases applyOp_refID_mint e op with ⟨hid, hm⟩ | ⟨hid, hm⟩
    · refine ⟨ns, ?_, hpw, ?_⟩
      · show (applyOp e op).2.toList ++ (runOps (applyOp e op).1 ops).2 = _
        rw [hm, hms]
        rfl
      · intro n hn
        have := hgt n hn
        omega
    · refine ⟨(e.refID + 1) :: ns, ?_, ?_, ?_⟩
      · show (applyOp e op).2.toList ++ (runOps (applyOp e op).1 ops).2 = _
        rw [hm, hms]
        rfl
      · refine List.Pairwise.cons ?_ hpw
        intro n hn
        have := hgt n hn
        omega
      · intro n hn
        rcases List.mem_cons.mp hn with hh | ht
        · omega
        · have := hgt n ht
          omega

lemma foldl_cascade_refs (l : List Nat) : ∀ e : Engine,
    (l.foldl (fun acc cid => deleteRef (closePage acc cid) cid) e).refs
      = e.refs := by
  induction l with
  | nil => intro e; rfl
  | cons cid rest ih =>
    intro e
    rw [List.foldl_cons, ih, deleteRef_refs]
    rfl

/-- The `/webpage/Close` handler never changes the reference table: the
parent's `delete(refs, msg.ref)` is the comma-expression no-op and the
cascade over owned pages only runs `deleteRef`, which removes nothing. -/
lemma handleWebpageClose_refs (e : Engine) (r : String) :
    (handleWebpageClose e r).1.refs = e.refs := by
  unfold handleWebpageClose
  split
  · rfl
  · split
    · rfl
    · show (List.foldl (fun acc cid => deleteRef (closePage acc cid) cid) _ _).refs = e.refs
      rw [foldl_cascade_refs]
      rfl

lemma payloadLookup_map (g : String → String) (h : List (String × List String))
    (k : String) (vs : List String) (hk : headerLookup h k = some vs) :
    payloadLookup (h.map (fun kv => (kv.1, g kv.1))) k = some (g k) := by
  induction h with
  | nil => simp [headerLookup] at hk
  | cons kv rest ih =>
    by_cases hkk : kv.1 = k
    · subst hkk
      simp [payloadLookup]
    · have hb : (kv.1 == k) = false := by simpa using hkk
      unfold headerLookup at hk
      unfold payloadLookup
      rw [List.find?_cons] at hk
      rw [List.map_cons, List.find?_cons]
      simp only [hb] at hk ⊢
      exact ih hk

lemma headerGet_canonical_self (h : List (String × List String)) (k : String)
    (vs : List String) (hc : CanonicalMIMEHeaderKey k = k)
    (hk : headerLookup h k = some vs) :
    headerGet h k = vs.headD "" := by
  unfold headerGet
  rw [hc, hk]
  cases vs <;> rfl

/- Claim theorems. -/

/-- C1.  The claim states that issuing a handle for an object already in
the reference table returns the identical identifier, the host decoding
the same identifier string both times.  The engine side does return the
existing key without allocating, but the dedup path of `createRef` returns
the key as a bare string where the allocation path returns an `{id: ...}`
object, so on the second `/webpage/Pages` round trip the host's
`json.Unmarshal` into `[]refJSON` fails and `mustDoJSON` panics: the host
never decodes the identifier a second time. -/
theorem c1_dedup_second_decode_panics :
    firstPagesCall.2 = .ok ["2"] ∧
    (webPagePages firstPagesCall.1 "1").1 = firstPagesCall.1 ∧
    (webPagePages firstPagesCall.1 "1").2.isPanicked = true := by
  decide

/-- C2.  The claim states that after `/webpage/Close` the handle is absent
from the reference table and later operations fail with NotFound.  In the
code, `delete(refs, msg.ref)` deletes the value of a comma expression and
removes nothing, so handle `"1"` is still bound after a 200 close; and the
dispatcher answers 404 only for unknown paths — an operation carrying a
genuinely absent handle makes its handler throw on `undefined`, producing
500, not NotFound. -/
theorem c2_closed_handle_remains_in_table :
    (dispatch engineAfterCreate (.webpageClose "1")).2.status = 200 ∧
    refLookup engineAfterClose "1" = some 0 ∧
    (heapGet engineAfterClose 0).map (fun p => p.closed) = some true ∧
    (dispatch engineAfterClose (.webpageCanGoBack "99")).2.status = 500 ∧
    (dispatch engineAfterClose (.unknown "/webpage/Missing")).2.status = 404 := by
  decide

/-- C3.  The claim states that closing a page with K owned children leaves
all K+1 handle identifiers absent from the reference table.  The handler
does close parent and children, but both of its deallocation steps
(`delete(refs, msg.ref)` and `deleteRef`) are no-ops, so the reference
table is unchanged by every `/webpage/Close`; in the K = 1 scenario both
handles `"1"` and `"2"` remain bound afterwards. -/
theorem c3_cascade_close_removes_no_handle :
    (∀ (e : Engine) (r : String), (handleWebpageClose e r).1.refs = e.refs) ∧
    refLookup engineAfterCascade "1" = some 0 ∧
    refLookup engineAfterCascade "2" = some 1 ∧
    (heapGet engineAfterCascade 0).map (fun p => p.closed) = some true ∧
    (heapGet engineAfterCascade 1).map (fun p => p.closed) = some true := by
  refine ⟨handleWebpageClose_refs, ?_, ?_, ?_, ?_⟩ <;> decide

/-- C4.  Along every trace of reference-table operations starting from the
initial engine state, the minted handle identifiers are the decimal
renderings of a strictly increasing sequence of counter values, and no
identifier is ever issued twice. -/
theorem c4_minted_ids_strictly_increasing (ops : List TableOp) :
    ∃ ns : List Nat,
      (runOps Engine.init ops).2 = ns.map Nat.repr ∧
      ns.Pairwise (· < ·) ∧
      ((runOps Engine.init ops).2).Nodup := by
  obtain ⟨ns, hms, hpw, _⟩ := runOps_minted ops Engine.init
  refine ⟨ns, hms, hpw, ?_⟩
  rw [hms]
  exact List.Nodup.map natRepr_injective
    (hpw.imp (fun hlt => Nat.ne_of_lt hlt))

/-- C5 counterexample.  At the concrete input of a 500 response with body
`boom`, the transport does not surface a recoverable error value to the
caller: `mustDoJSON` panics (with the body verbatim as message), refuting
the claim that the failure is propagated as an error value rather than
aborting. -/
theorem c5_counterexample_500_response_panics :
    (mustDoJSON "/webpage/Open"
        (.response { status := 500, body := .text "boom" })
        (none : Option (RespBody → Except String Unit))).isPanicked = true ∧
    mustDoJSON "/webpage/Open"
        (.response { status := 500, body := .text "boom" })
        (none : Option (RespBody → Except String Unit)) = .panicked "boom" := by
  decide

/-- C5 (amended).  The transport panics instead of returning error values:
a 500 response panics with the response body verbatim, a 404 response
panics with `not found: ` and the path, a connection failure panics with
its message, and a body that fails to decode panics with an unmarshal
error; no recoverable error value is ever handed to the caller. -/
theorem c5_transport_panics (α : Type) (path msg : String) (b : RespBody)
    (dec : Option (RespBody → Except String α))
    (d : RespBody → Except String α) :
    mustDoJSON path (.response { status := 500, body := b }) dec
      = .panicked (bodyText b) ∧
    mustDoJSON path (.response { status := 404, body := b }) dec
      = .panicked ("not found: " ++ path) ∧
    mustDoJSON path (.connError msg) dec = .panicked msg ∧
    mustDoJSON path (.response { status := 200, body := b }) (some d)
      = (match d b with
         | .ok a => .ok a
         | .error err =>
           .panicked ("unmarshal error: err=" ++ err ++ ", buffer=" ++ bodyText b)) :=
  ⟨rfl, rfl, rfl, rfl⟩

/-- C6.  For every failure injection point of `Process.Open` (temporary
directory creation, shim staging, process launch, readiness timeout), when
`Open` returns an error the private directory and staged shim are gone and
no process is running: the rollback is total. -/
theorem c6_open_failure_rolls_back (fp : OpenStep) (h : fp ≠ .success) :
    ((processOpen {} {} fp).2.2).isSome = true ∧
    (processOpen {} {} fp).2.1.dirExists = false ∧
    (processOpen {} {} fp).2.1.shimWritten = false ∧
    (processOpen {} {} fp).2.1.procRunning = false := by
  cases fp with
  | success => exact absurd rfl h
  | tempDirFail => decide
  | writeFileFail => decide
  | startFail => decide
  | waitTimeout => decide

/-- Witness for C6 at the readiness-timeout injection point. -/
theorem c6_open_failure_rolls_back_witness :
    (OpenStep.waitTimeout ≠ OpenStep.success) ∧
    (((processOpen {} {} .waitTimeout).2.2).isSome = true ∧
      (processOpen {} {} .waitTimeout).2.1.dirExists = false ∧
      (processOpen {} {} .waitTimeout).2.1.shimWritten = false ∧
      (processOpen {} {} .waitTimeout).2.1.procRunning = false) :=
  ⟨by decide, c6_open_failure_rolls_back .waitTimeout (by decide)⟩

/-- C7.  `Process.Close` on a never-opened process is a panic-free no-op
returning no error, and after any `Open` outcome two further `Close` calls
both return normally (reporting a kill error where the process is already
gone, never panicking) and leave no directory, shim or process behind. -/
theorem c7_close_idempotent_and_safe (fp : OpenStep) :
    processClose {} {} = ({}, {}, .normal none) ∧
    (processClose (processOpen {} {} fp).1
        (processOpen {} {} fp).2.1).2.2.isPanicked = false ∧
    ((processClose
        (processClose (processOpen {} {} fp).1 (processOpen {} {} fp).2.1).1
        (processClose (processOpen {} {} fp).1
          (processOpen {} {} fp).2.1).2.1).2.2).isPanicked = false ∧
    (processClose
        (processClose (processOpen {} {} fp).1 (processOpen {} {} fp).2.1).1
        (processClose (processOpen {} {} fp).1
          (processOpen {} {} fp).2.1).2.1).2.1.dirExists = false ∧
    (processClose
        (processClose (processOpen {} {} fp).1 (processOpen {} {} fp).2.1).1
        (processClose (processOpen {} {} fp).1
          (processOpen {} {} fp).2.1).2.1).2.1.shimWritten = false ∧
    (processClose
        (processClose (processOpen {} {} fp).1 (processOpen {} {} fp).2.1).1
        (processClose (processOpen {} {} fp).1
          (processOpen {} {} fp).2.1).2.1).2.1.procRunning = false := by
  cases fp <;> decide

/-- C8.  Asking for an owned page by a name that matches no child window
returns `nil` through an empty JSON object — a normal outcome, not an
error; asking by the name of a child that was never referenced returns a
handle-bearing page; but asking by the name of a child that already holds
a handle hits the bare-string dedup path of `createRef` and the host
decode panics instead of returning the page. -/
theorem c8_page_by_name_nil_and_dedup :
    (webPagePage firstPagesCall.1 "1" "nope").2 = .ok none ∧
    (webPagePage firstPagesCall.1 "1" "nope").2.isPanicked = false ∧
    (webPagePage engineWithChild "1" "win1").2 = .ok (some "2") ∧
    (webPagePage firstPagesCall.1 "1" "win1").2.isPanicked = true := by
  decide

/-- C9.  The eight exported `WebPage` stub methods `SendEvent`,
`SetContentAndURL`, `Stop`, `SwitchToChildFrame`, `SwitchToFocusedFrame`,
`SwitchToMainFrame`, `SwitchToParentFrame` and `UploadFile` panic with
`TODO` for every receiver, issuing no RPC request. -/
theorem c9_stub_methods_panic (p : WebPage) :
    p.SendEvent = { requests := [], panicMsg := some "TODO" } ∧
    p.SetContentAndURL = { requests := [], panicMsg := some "TODO" } ∧
    p.Stop = { requests := [], panicMsg := some "TODO" } ∧
    p.SwitchToChildFrame = { requests := [], panicMsg := some "TODO" } ∧
    p.SwitchToFocusedFrame = { requests := [], panicMsg := some "TODO" } ∧
    p.SwitchToMainFrame = { requests := [], panicMsg := some "TODO" } ∧
    p.SwitchToParentFrame = { requests := [], panicMsg := some "TODO" } ∧
    p.UploadFile = { requests := [], panicMsg := some "TODO" } :=
  ⟨rfl, rfl, rfl, rfl, rfl, rfl, rfl, rfl⟩

/-- C10 counterexample.  For the header map binding the non-canonical key
`x-custom-key` to the two values `a`, `b`, the payload built by
`SetCustomHeaders` maps the key to the empty string, not to the first
value `a`: `header.Get` canonicalizes the key to `X-Custom-Key`, misses,
and returns `""`, refuting the claim for this input. -/
theorem c10_counterexample_noncanonical_key :
    setCustomHeadersPayload [("x-custom-key", ["a", "b"])]
      = [("x-custom-key", "")] ∧
    ¬ payloadLookup (setCustomHeadersPayload [("x-custom-key", ["a", "b"])])
        "x-custom-key" = some "a" := by
  decide

/-- C10 (amended).  For every stored header key, the payload built by
`SetCustomHeaders` contains exactly one value: the first value of the list
stored under the canonical MIME form of that key, or the empty string when
no entry is stored under the canonical form or its list is empty.  In
particular a key already in canonical form with a nonempty list keeps the
first value of its own list, every additional value silently dropped. -/
theorem c10_payload_get_first_of_canonical (h : List (String × List String))
    (k : String) (vs : List String) (hk : headerLookup h k = some vs) :
    payloadLookup (setCustomHeadersPayload h) k
      = some (match headerLookup h (CanonicalMIMEHeaderKey k) with
              | none => ""
              | some [] => ""
              | some (v :: _) => v) ∧
    (CanonicalMIMEHeaderKey k = k →
      payloadLookup (setCustomHeadersPayload h) k = some (vs.headD "")) := by
  constructor
  · unfold setCustomHeadersPayload
    rw [payloadLookup_map (fun key => headerGet h key) h k vs hk]
    unfold headerGet
    cases headerLookup h (CanonicalMIMEHeaderKey k) with
    | none => rfl
    | some l => cases l with
      | nil => rfl
      | cons v t => rfl
  · intro hc
    unfold setCustomHeadersPayload
    rw [payloadLookup_map (fun key => headerGet h key) h k vs hk]
    rw [headerGet_canonical_self h k vs hc hk]

/-- Witness for C10: on a canonical key with two values the payload keeps
the first value `a`; on a header storing both `x-foo` and `X-Foo`, the
stored non-canonical key `x-foo` is mapped to the canonical entry's first
value `b`. -/
theorem c10_payload_get_first_of_canonical_witness :
    (headerLookup [("X-Custom-Key", ["a", "b"])] "X-Custom-Key"
        = some ["a", "b"] ∧
      CanonicalMIMEHeaderKey "X-Custom-Key" = "X-Custom-Key" ∧
      payloadLookup (setCustomHeadersPayload [("X-Custom-Key", ["a", "b"])])
        "X-Custom-Key" = some (["a", "b"].headD "")) ∧
    (headerLookup [("x-foo", ["a"]), ("X-Foo", ["b"])] "x-foo" = some ["a"] ∧
      payloadLookup (setCustomHeadersPayload [("x-foo", ["a"]), ("X-Foo", ["b"])])
        "x-foo" = some (headerGet [("x-foo", ["a"]), ("X-Foo", ["b"])] "x-foo") ∧
      headerGet [("x-foo", ["a"]), ("X-Foo", ["b"])] "x-foo" = "b") :=
  ⟨⟨by decide, by decide,
      (c10_payload_get_first_of_canonical [("X-Custom-Key", ["a", "b"])]
        "X-Custom-Key" ["a", "b"] (by decide)).2 (by decide)⟩,
    ⟨by decide,
      (c10_payload_get_first_of_canonical [("x-foo", ["a"]), ("X-Foo", ["b"])]
        "x-foo" ["a"] (by decide)).1,
      by decide⟩⟩

end Phantom
